import Mathlib

set_option maxRecDepth 20000

/-!
Verification development for the ClickUp / TypingMind integration service.

The JavaScript sources are embedded as executable Lean definitions over a
model of untyped JavaScript values (`Js`).  Code that can raise a JavaScript
`TypeError` is embedded in the `Except String` monad; `try`/`catch` blocks
become explicit `match` recoveries.  The upstream HTTP client is modeled as
an environment of per-resource responses (`FetchEnv`), since the repository
treats it as a black box returning parsed JSON or an error.
-/

/-- Model of an untyped JavaScript value as it flows through the formatters:
JSON trees plus the distinguished undefined value.  Numbers are modeled as
integers; the embedded code only ever produces or consumes integral numbers
(millisecond timestamps, lengths, counts). -/
inductive Js where
  | undefined : Js
  | null : Js
  | bool : Bool → Js
  | num : Int → Js
  | str : String → Js
  | arr : List Js → Js
  | obj : List (String × Js) → Js
deriving Repr

/-- JavaScript truthiness.  Arrays and objects are always truthy, including
empty ones; undefined, null, false, 0 and the empty string are falsy. -/
def Js.truthy : Js → Bool
  | .undefined => false
  | .null => false
  | .bool b => b
  | .num n => n != 0
  | .str s => s != ""
  | .arr _ => true
  | .obj _ => true

/-- A value is nullish when it is null or undefined; reading a property of a
nullish value is a TypeError. -/
def Js.isNullish : Js → Bool
  | .undefined => true
  | .null => true
  | _ => false

def Js.isUndefined : Js → Bool
  | .undefined => true
  | _ => false

def Js.isArr : Js → Bool
  | .arr _ => true
  | _ => false

/-- Property read on a value already known to be non-nullish: objects yield
the stored field or undefined, every other value yields undefined.  The
embedded code never reads numeric indices or the length property through
this function (array lengths are modeled by `jsLength`). -/
def propRead : Js → String → Js
  | .obj fs, k =>
    match fs.find? (fun p => p.1 == k) with
    | some p => p.2
    | none => .undefined
  | _, _ => .undefined

/-- Property access `v.k` as an expression that can throw: a TypeError on
null or undefined, otherwise the property value. -/
def jsRead (v : Js) (k : String) : Except String Js :=
  if v.isNullish then .error ("TypeError: cannot read property " ++ k)
  else .ok (propRead v k)

/-- Value of the JavaScript expression `v.length` compared against zero, as
in the guards `xs && xs.length > 0`: arrays and strings have a length, for
any other value the comparison `undefined > 0` is false. -/
def jsLenGtZero : Js → Bool
  | .arr xs => xs.length > 0
  | .str s => s.length > 0
  | _ => false

/-- The JavaScript expression `v.length` as a value (used only where the
source interpolates a length into a template string). -/
def jsLength : Js → Js
  | .arr xs => .num xs.length
  | .str s => .num s.length
  | _ => .undefined

mutual
/-- String conversion as performed by JavaScript template literals and
`String(v)`: objects print as `[object Object]`, arrays print as their
elements joined by commas with nullish elements printed as empty. -/
def jsToString : Js → String
  | .undefined => "undefined"
  | .null => "null"
  | .bool b => if b then "true" else "false"
  | .num n => toString n
  | .str s => s
  | .arr xs => String.intercalate "," (jsToStringItems xs)
  | .obj _ => "[object Object]"

def jsToStringItems : List Js → List String
  | [] => []
  | .undefined :: xs => "" :: jsToStringItems xs
  | .null :: xs => "" :: jsToStringItems xs
  | x :: xs => jsToString x :: jsToStringItems xs
end

/-- Element conversion used by `Array.prototype.join`: nullish elements
become the empty string, all others their string conversion. -/
def joinItem (v : Js) : String :=
  if v.isNullish then "" else jsToString v

/-- Global non-overlapping leftmost replacement of a fixed pattern, the
behavior of `.replace(/pat/g, repl)` for a literal pattern.  The fuel equals
the input length; every step consumes at least one character. -/
def replaceAllFuel (pat repl : List Char) : Nat → List Char → List Char
  | 0, cs => cs
  | _ + 1, [] => []
  | fuel + 1, c :: cs =>
    if pat ≠ [] ∧ (c :: cs).take pat.length = pat then
      repl ++ replaceAllFuel pat repl fuel ((c :: cs).drop pat.length)
    else c :: replaceAllFuel pat repl fuel cs

def replaceAll (s pat repl : String) : String :=
  String.mk (replaceAllFuel pat.toList repl.toList s.length s.toList)

/-- Split on a non-empty literal separator, the behavior of both JavaScript
`split` and `String.splitOn` on the separators the sources use. -/
def splitOnFuel (sep : List Char) : Nat → List Char → List Char → List String
  | 0, acc, cs => [String.mk (acc.reverse ++ cs)]
  | fuel + 1, acc, cs =>
    match cs with
    | [] => [String.mk acc.reverse]
    | c :: rest =>
      if sep ≠ [] ∧ cs.take sep.length = sep then
        String.mk acc.reverse :: splitOnFuel sep fuel [] (cs.drop sep.length)
      else splitOnFuel sep fuel (c :: acc) rest

def strSplitOn (s sep : String) : List String :=
  splitOnFuel sep.toList (s.length + 1) [] s.toList

/-- Whitespace trim at both ends, the behavior of `trim`. -/
def trimStr (s : String) : String :=
  String.mk (((s.toList.dropWhile Char.isWhitespace).reverse.dropWhile
    Char.isWhitespace).reverse)

/-- Character-wise upper-casing, the behavior of `toUpperCase` on the ASCII
kind labels. -/
def upperStr (s : String) : String :=
  String.mk (s.toList.map Char.toUpper)

/-- Literal-prefix test, the behavior of `startsWith`. -/
def startsWithStr (s p : String) : Bool :=
  p.toList.isPrefixOf s.toList

/-- Leading-decimal-integer parse of a string, as `parseInt` does: skip
whitespace, read an optional sign and a run of digits; no digits is NaN,
modeled as none.  Hexadecimal prefixes are not modeled (never hit by the
embedded call sites, which parse timestamp digit strings). -/
def parseIntCore (s : String) : Option Int :=
  let cs := s.toList.dropWhile (fun c => c.isWhitespace)
  let signed : Int × List Char :=
    match cs with
    | c :: rest =>
      if c = '-' then (-1, rest)
      else if c = '+' then (1, rest)
      else (1, c :: rest)
    | [] => (1, [])
  let ds := signed.2.takeWhile (fun c => c.isDigit)
  if ds.isEmpty then none
  else some (signed.1 * Int.ofNat (ds.foldl (fun a c => a * 10 + (c.toNat - 48)) 0))

/-- The JavaScript coercion `parseInt(v)`: the value is converted to a
string first. -/
def jsParseInt (v : Js) : Option Int :=
  parseIntCore (jsToString v)

/-- Largest valid JavaScript Date magnitude in milliseconds. -/
def maxDateMs : Int := 8640000000000000

def validMs (n : Int) : Bool := -maxDateMs ≤ n && n ≤ maxDateMs

/-- Civil (proleptic Gregorian) date from a count of days since 1970-01-01,
used to model the printing methods of a JavaScript Date. -/
def civilFromDays (z0 : Int) : Int × Nat × Nat :=
  let z := z0 + 719468
  let era : Int := Int.fdiv z 146097
  let doe : Nat := (z - era * 146097).toNat
  let yoe : Nat := (doe - doe / 1460 + doe / 36524 - doe / 146096) / 365
  let doy : Nat := doe - (365 * yoe + yoe / 4 - yoe / 100)
  let mp : Nat := (5 * doy + 2) / 153
  let d : Nat := doy - (153 * mp + 2) / 5 + 1
  let m : Nat := if mp < 10 then mp + 3 else mp - 9
  ((yoe : Int) + era * 400 + (if m ≤ 2 then 1 else 0), m, d)

/-- Days since 1970-01-01 of a civil date, inverse of `civilFromDays`. -/
def daysFromCivil (y : Int) (m d : Nat) : Int :=
  let yy := if m ≤ 2 then y - 1 else y
  let era : Int := Int.fdiv yy 400
  let yoe : Nat := (yy - era * 400).toNat
  let mp : Nat := if m > 2 then m - 3 else m + 9
  let doy : Nat := (153 * mp + 2) / 5 + d - 1
  let doe : Nat := yoe * 365 + yoe / 4 - yoe / 100 + doy
  era * 146097 + Int.ofNat doe - 719468

/-- Left-pad a natural number with zeros to the given width. -/
def padNum (w : Nat) (n : Nat) : String :=
  let s := toString n
  if s.length < w then String.mk (List.replicate (w - s.length) '0') ++ s else s

/-- Year rendering of `Date.prototype.toISOString` (expanded form outside
0000-9999). -/
def padYear (y : Int) : String :=
  if y < 0 then "-" ++ padNum 6 (-y).toNat
  else if y > 9999 then "+" ++ padNum 6 y.toNat
  else padNum 4 y.toNat

/-- ISO-8601 rendering of a valid millisecond timestamp, modeling
`Date.prototype.toISOString`. -/
def isoOfMillis (ms : Int) : String :=
  let day := Int.fdiv ms 86400000
  let msd := (ms - day * 86400000).toNat
  let c := civilFromDays day
  padYear c.1 ++ "-" ++ padNum 2 c.2.1 ++ "-" ++ padNum 2 c.2.2 ++ "T" ++
    padNum 2 (msd / 3600000) ++ ":" ++ padNum 2 (msd % 3600000 / 60000) ++ ":" ++
    padNum 2 (msd % 60000 / 1000) ++ "." ++ padNum 3 (msd % 1000) ++ "Z"

def readNatDigits (cs : List Char) (k : Nat) : Option (Nat × List Char) :=
  let ds := cs.take k
  if ds.length = k && ds.all (fun c => c.isDigit) then
    some (ds.foldl (fun a c => a * 10 + (c.toNat - 48)) 0, cs.drop k)
  else none

def expectChar (cs : List Char) (c : Char) : Option (List Char) :=
  match cs with
  | x :: rest => if x = c then some rest else none
  | [] => none

/-- Millisecond timestamp of an ISO-8601 date or date-time string.  This
models the ISO branch of JavaScript Date string parsing; non-ISO strings
(including the bare digit strings ClickUp uses for timestamps, which V8
rejects) parse to an invalid date, modeled as none. -/
def isoParse (s : String) : Option Int := do
  let cs := s.toList
  let (y, cs) ← readNatDigits cs 4
  let cs ← expectChar cs '-'
  let (mo, cs) ← readNatDigits cs 2
  let cs ← expectChar cs '-'
  let (d, cs) ← readNatDigits cs 2
  if mo < 1 || 12 < mo || d < 1 || 31 < d then none
  else
    let dayMs : Int := daysFromCivil (Int.ofNat y) mo d * 86400000
    match cs with
    | [] => some dayMs
    | _ => do
      let cs ← expectChar cs 'T'
      let (hh, cs) ← readNatDigits cs 2
      let cs ← expectChar cs ':'
      let (mi, cs) ← readNatDigits cs 2
      let cs ← expectChar cs ':'
      let (ss, cs) ← readNatDigits cs 2
      let (mss, cs) ←
        match cs with
        | '.' :: rest => do
          let (v, cs2) ← readNatDigits rest 3
          pure (v, cs2)
        | _ => pure (0, cs)
      let cs ← expectChar cs 'Z'
      if cs.isEmpty && hh < 24 && mi < 60 && ss < 60 then
        some (dayMs + Int.ofNat (hh * 3600000 + mi * 60000 + ss * 1000 + mss))
      else none

/-- Millisecond value of `new Date(v)` for the argument shapes the embedded
code produces: a number is taken as milliseconds, a string goes through ISO
parsing, anything else (in particular undefined) is an invalid date. -/
def jsDateMs (v : Js) : Option Int :=
  let raw : Option Int :=
    match v with
    | .num n => some n
    | .str s => isoParse s
    | .bool b => some (if b then 1 else 0)
    | _ => none
  match raw with
  | some n => if validMs n then some n else none
  | none => none

/-- Deterministic model of `Date.prototype.toLocaleDateString` (the en-US
month/day/year shape); the real output is locale dependent, but nothing in
the verified claims depends on the concrete text. -/
def localeDateOfMillis (ms : Int) : String :=
  let day := Int.fdiv ms 86400000
  let c := civilFromDays day
  toString c.2.1 ++ "/" ++ toString c.2.2 ++ "/" ++ toString c.1

/-- Deterministic model of `Date.prototype.toLocaleString`. -/
def localeStringOfMillis (ms : Int) : String :=
  let msd := (ms - Int.fdiv ms 86400000 * 86400000).toNat
  localeDateOfMillis ms ++ ", " ++ padNum 2 (msd / 3600000) ++ ":" ++
    padNum 2 (msd % 3600000 / 60000) ++ ":" ++ padNum 2 (msd % 60000 / 1000)

/-- Concatenation of a list of strings (the repeated `+=` of the sources). -/
def strConcat : List String → String
  | [] => ""
  | s :: rest => s ++ strConcat rest

/-- Indexed effectful map, modeling `forEach`/`map` loops with an index. -/
def mapIdxM (f : Nat → Js → Except String String) (xs : List Js) :
    Except String (List String) :=
  xs.enum.mapM (fun p => f p.1 p.2)

/-- Wrapper for the `{ text: ... }` objects the formatters return. -/
def textObj (s : String) : Js := Js.obj [("text", Js.str s)]

/-- Coercion used where the source calls a string method such as `replace`
on a field: non-string values raise a TypeError. -/
def expectString : Js → Except String String
  | .str s => .ok s
  | _ => .error "TypeError: v.replace is not a function"

/-- Embeds the helper `get(obj, path, defaultValue)` of the enhanced
formatters: walk the dotted path, returning the default as soon as an
intermediate value is nullish, and the default if the final value is
undefined (a final null is returned as null, exactly as the source does). -/
def getPathParts : Js → List String → Js → Js
  | cur, [], dflt => if cur.isUndefined then dflt else cur
  | cur, p :: rest, dflt =>
    if cur.isNullish then dflt else getPathParts (propRead cur p) rest dflt

def getProp (obj : Js) (path : String) (dflt : Js) : Js :=
  getPathParts obj (strSplitOn path ".") dflt

/-- Embeds `safeDate` of the enhanced task formatter: falsy timestamps give
null; strings go through Date string parsing, other values through
`parseInt` and `new Date(number)`; a valid date renders as ISO-8601 and an
invalid one gives null (the try/catch around an out-of-range `toISOString`
also lands on null via the range check). -/
def safeDate (timestamp : Js) : Js :=
  if ¬ timestamp.truthy then .null
  else
    match (match timestamp with
           | .str s => isoParse s
           | v => jsParseInt v) with
    | some n => if validMs n then .str (isoOfMillis n) else .null
    | none => .null

/-- Markdown link recognizer for the regex `\[([^\]]+)\]\([^)]+\)`: at a
leading opening bracket, a non-empty run without a closing bracket, then the
parenthesised non-empty target.  Returns the link text and the rest. -/
def linkAt (cs : List Char) : Option (List Char × List Char) :=
  match cs with
  | '[' :: rest =>
    let txt := rest.takeWhile (fun c => c ≠ ']')
    if txt.isEmpty then none
    else
      match rest.drop txt.length with
      | ']' :: '(' :: rest3 =>
        let url := rest3.takeWhile (fun c => c ≠ ')')
        if url.isEmpty then none
        else
          match rest3.drop url.length with
          | ')' :: rest5 => some (txt, rest5)
          | _ => none
      | _ => none
  | _ => none

/-- Global leftmost replacement of markdown links by their text.  The fuel
equals the input length; every step consumes at least one character, so the
fuel never runs out. -/
def stripLinksFuel : Nat → List Char → List Char
  | 0, cs => cs
  | _ + 1, [] => []
  | fuel + 1, c :: cs =>
    match linkAt (c :: cs) with
    | some (txt, rest) => txt ++ stripLinksFuel fuel rest
    | none => c :: stripLinksFuel fuel cs

def stripMarkdownLinks (s : String) : String :=
  String.mk (stripLinksFuel s.length s.toList)

/-- Global removal for the regex `#{1,6}\s?`: one to six hash marks followed
by an optional whitespace character. -/
def stripHeadingsFuel : Nat → List Char → List Char
  | 0, cs => cs
  | _ + 1, [] => []
  | fuel + 1, c :: cs =>
    if c = '#' then
      let n := min ((c :: cs).takeWhile (fun x => x = '#')).length 6
      let rest := (c :: cs).drop n
      stripHeadingsFuel fuel
        (match rest with
         | x :: r => if x.isWhitespace then r else rest
         | [] => [])
    else c :: stripHeadingsFuel fuel cs

def stripHeadings (s : String) : String :=
  String.mk (stripHeadingsFuel s.length s.toList)

/-- The markup-stripping pipeline applied to task descriptions, in source
order: bold markers, italic markers, markdown links, heading markers. -/
def cleanDescription (s : String) : String :=
  stripHeadings (stripMarkdownLinks (replaceAll (replaceAll s "**" "") "*" ""))

/-- The truncation applied after cleaning: more than 100 characters renders
as the first 100 plus an ellipsis, otherwise unchanged. -/
def truncateDescription (cleanDesc : String) : String :=
  if cleanDesc.length > 100 then cleanDesc.take 100 ++ "..." else cleanDesc

/-- Degraded entry produced by the per-task catch of the enhanced task
formatter. -/
def degradedTaskEntry (task : Js) : Js :=
  Js.obj [("id", getProp task "id" (Js.str "unknown")),
          ("name", getProp task "name" (Js.str "Unknown task")),
          ("error", Js.str "Error formatting task data")]

/-- Body of the per-task mapping of the enhanced `formatTasksForTypingMind`.
Every field extraction goes through the safe `get`; the only direct,
throwing property reads are `task.assignees` and `task.priority`, so the
body throws exactly when the task itself is nullish. -/
def formatTaskItemTry (task : Js) : Except String Js := do
  let status := Js.obj [
    ("status", getProp task "status.status" (Js.str "Unknown")),
    ("color", getProp task "status.color" Js.null),
    ("type", getProp task "status.type" Js.null)]
  let rawAssignees ← jsRead task "assignees"
  let assignees : Js :=
    match rawAssignees with
    | .arr xs => .arr (xs.map (fun a => Js.obj [
        ("id", getProp a "id" Js.null),
        ("username", getProp a "username" Js.null),
        ("email", getProp a "email" Js.null),
        ("profilePicture", getProp a "profilePicture" Js.null)]))
    | _ => .arr []
  let rawPriority ← jsRead task "priority"
  let priority : Js :=
    if rawPriority.truthy then
      Js.obj [("priority", getProp task "priority.priority" Js.null),
              ("color", getProp task "priority.color" Js.null)]
    else Js.null
  pure (Js.obj [
    ("id", getProp task "id" (Js.str "unknown-id")),
    ("name", getProp task "name" (Js.str "Unnamed Task")),
    ("description", getProp task "description" (Js.str "")),
    ("status", status),
    ("priority", priority),
    ("timeEstimate", getProp task "time_estimate" Js.null),
    ("timeSpent", getProp task "time_spent" Js.null),
    ("createdAt", safeDate (getProp task "date_created" Js.null)),
    ("updatedAt", safeDate (getProp task "date_updated" Js.null)),
    ("dueDate", safeDate (getProp task "due_date" Js.null)),
    ("startDate", safeDate (getProp task "start_date" Js.null)),
    ("assignees", assignees),
    ("tags", if (getProp task "tags" Js.null).isArr then getProp task "tags" Js.null
             else Js.arr []),
    ("url", getProp task "url" Js.null)])

/-- One task through the enhanced formatter: the try body, with the catch
replacing a failed entry by the degraded entry. -/
def formatTaskItem (task : Js) : Js :=
  match formatTaskItemTry task with
  | .ok e => e
  | .error _ => degradedTaskEntry task

/-- Embeds the enhanced `formatTasksForTypingMind`: accept the list wrapped
under `tasks` or the bare list, return an empty entry list for any other
shape, and map each task through the per-entry formatter. -/
def formatTasksForTypingMind (data : Js) : Except String Js := do
  let tasksField ← jsRead data "tasks"
  let tasks := if tasksField.truthy then tasksField
               else if data.truthy then data else Js.arr []
  match tasks with
  | .arr ts => pure (Js.arr (ts.map formatTaskItem))
  | _ => pure (Js.arr [])

/-- Per-space text block of `formatSpacesForTypingMind` (which joins the
names of the `status` fields of the statuses array). -/
def spaceBlockFmt (idx : Nat) (space : Js) : Except String String := do
  let nm ← jsRead space "name"
  let sid ← jsRead space "id"
  let base := toString (idx + 1) ++ ". Space: " ++ jsToString nm ++
    "\n   ID: " ++ jsToString sid ++ "\n"
  let statuses := propRead space "statuses"
  let stLine ←
    if statuses.truthy && jsLenGtZero statuses then
      match statuses with
      | .arr sts => do
        let names ← sts.mapM (fun s => do
          let st ← jsRead s "status"
          pure (joinItem st))
        pure ("   Statuses: " ++ String.intercalate ", " names ++ "\n")
      | _ => .error "TypeError: statuses.map is not a function"
    else pure ""
  pure (base ++ stLine ++ "\n")

/-- Embeds `formatSpacesForTypingMind`: only a payload with a truthy
`spaces` property is formatted; everything else is reported as no spaces. -/
def formatSpacesForTypingMind (data : Js) : Except String Js := do
  let spacesField ← jsRead data "spaces"
  if ¬ spacesField.truthy then pure (textObj "No spaces found.")
  else
    match spacesField with
    | .arr spaces => do
      let blocks ← mapIdxM spaceBlockFmt spaces
      pure (textObj ("ClickUp Spaces:\n\n" ++ strConcat blocks))
    | _ => .error "TypeError: spaces.forEach is not a function"

/-- Per-list text block of `formatListsForTypingMind` (status when truthy,
task count when not undefined). -/
def listBlockFmt (idx : Nat) (list : Js) : Except String String := do
  let nm ← jsRead list "name"
  let lid ← jsRead list "id"
  let base := toString (idx + 1) ++ ". List: " ++ jsToString nm ++
    "\n   ID: " ++ jsToString lid ++ "\n"
  let stLine :=
    if (propRead list "status").truthy then
      "   Status: " ++ jsToString (propRead list "status") ++ "\n"
    else ""
  let tcLine :=
    if (propRead list "task_count").isUndefined then ""
    else "   Task Count: " ++ jsToString (propRead list "task_count") ++ "\n"
  pure (base ++ stLine ++ tcLine ++ "\n")

/-- Embeds `formatListsForTypingMind`. -/
def formatListsForTypingMind (data : Js) : Except String Js := do
  let listsField ← jsRead data "lists"
  if ¬ listsField.truthy then pure (textObj "No lists found.")
  else
    match listsField with
    | .arr lists => do
      let blocks ← mapIdxM listBlockFmt lists
      pure (textObj ("ClickUp Lists:\n\n" ++ strConcat blocks))
    | _ => .error "TypeError: lists.forEach is not a function"

/-- Per-folder text block of `formatFoldersForTypingMind`. -/
def folderBlockFmt (idx : Nat) (folder : Js) : Except String String := do
  let nm ← jsRead folder "name"
  let fid ← jsRead folder "id"
  let base := toString (idx + 1) ++ ". Folder: " ++ jsToString nm ++
    "\n   ID: " ++ jsToString fid ++ "\n"
  let listsF := propRead folder "lists"
  let listsLine :=
    if listsF.truthy && jsLenGtZero listsF then
      "   Lists: " ++ jsToString (jsLength listsF) ++ "\n"
    else ""
  pure (base ++ listsLine ++ "\n")

/-- Embeds `formatFoldersForTypingMind`. -/
def formatFoldersForTypingMind (data : Js) : Except String Js := do
  let foldersField ← jsRead data "folders"
  if ¬ foldersField.truthy then pure (textObj "No folders found.")
  else
    match foldersField with
    | .arr folders => do
      let blocks ← mapIdxM folderBlockFmt folders
      pure (textObj ("ClickUp Folders:\n\n" ++ strConcat blocks))
    | _ => .error "TypeError: folders.forEach is not a function"

/-- Per-comment text block of `formatCommentsForTypingMind`: the author line
is guarded, but `comment.comment_text.replace` is not, so a comment whose
text field is missing or not a string throws out of the whole pass. -/
def commentBlockFmt (idx : Nat) (comment : Js) : Except String String := do
  let user ← jsRead comment "user"
  let byLine := toString (idx + 1) ++ ". Comment by: " ++
    (if user.truthy then jsToString (propRead user "username") else "Unknown") ++ "\n"
  let dateLine := "   Date: " ++
    (match jsDateMs (propRead comment "date") with
     | some n => localeStringOfMillis n
     | none => "Invalid Date") ++ "\n"
  let ct ← expectString (propRead comment "comment_text")
  pure (byLine ++ dateLine ++ "   Text: " ++
    replaceAll (replaceAll ct "**" "") "*" "" ++ "\n\n")

/-- Embeds `formatCommentsForTypingMind`. -/
def formatCommentsForTypingMind (data : Js) : Except String Js := do
  let commentsField ← jsRead data "comments"
  if ¬ commentsField.truthy then pure (textObj "No comments found.")
  else
    match commentsField with
    | .arr comments => do
      let blocks ← mapIdxM commentBlockFmt comments
      pure (textObj ("ClickUp Comments:\n\n" ++ strConcat blocks))
    | _ => .error "TypeError: comments.forEach is not a function"

def jsonQuoteChar (c : Char) : String :=
  if c = '"' then "\\\""
  else if c = '\\' then "\\\\"
  else if c = '\n' then "\\n"
  else if c = '\t' then "\\t"
  else if c = '\r' then "\\r"
  else String.mk [c]

def jsonQuote (s : String) : String :=
  "\"" ++ strConcat (s.toList.map jsonQuoteChar) ++ "\""

mutual
/-- Pretty JSON rendering with two-space indentation, modeling
`JSON.stringify(v, null, 2)` at nesting depth `ind`; undefined values are
omitted (none), undefined array elements render as null. -/
def jsonVal : Js → Nat → Option String
  | .undefined, _ => none
  | .null, _ => some "null"
  | .bool b, _ => some (if b then "true" else "false")
  | .num n, _ => some (toString n)
  | .str s, _ => some (jsonQuote s)
  | .arr [], _ => some "[]"
  | .arr xs, ind =>
    some ("[\n" ++ String.intercalate ",\n" (jsonArrItems xs (ind + 2)) ++
      "\n" ++ String.mk (List.replicate ind ' ') ++ "]")
  | .obj fs, ind =>
    match jsonObjItems fs (ind + 2) with
    | [] => some "\x7b\x7d"
    | items =>
      some ("\x7b\n" ++ String.intercalate ",\n" items ++
        "\n" ++ String.mk (List.replicate ind ' ') ++ "\x7d")

def jsonArrItems : List Js → Nat → List String
  | [], _ => []
  | x :: xs, ind =>
    (String.mk (List.replicate ind ' ') ++
      (match jsonVal x ind with
       | some s => s
       | none => "null")) :: jsonArrItems xs ind

def jsonObjItems : List (String × Js) → Nat → List String
  | [], _ => []
  | (k, v) :: fs, ind =>
    match jsonVal v ind with
    | some s =>
      (String.mk (List.replicate ind ' ') ++ jsonQuote k ++ ": " ++ s) ::
        jsonObjItems fs ind
    | none => jsonObjItems fs ind
end

/-- Number of own enumerable keys, as `Object.keys(v).length`: object
fields, array indices, string positions; primitives have none. -/
def jsKeysCount : Js → Nat
  | .obj fs => fs.length
  | .arr xs => xs.length
  | .str s => s.length
  | _ => 0

/-- Embeds `formatGenericForTypingMind`. -/
def formatGenericForTypingMind (data : Js) (dataType : String) : Except String Js :=
  if ¬ data.truthy ∨ jsKeysCount data = 0 then
    pure (textObj ("No " ++ dataType ++ " data found."))
  else
    pure (textObj ("ClickUp " ++ dataType ++ " data:\n\n" ++
      (match jsonVal data 0 with
       | some s => s
       | none => "undefined")))

def capitalizeFirst (s : String) : String :=
  match s.toList with
  | [] => ""
  | c :: rest => String.mk (c.toUpper :: rest)

/-- Per-entry task block of `convertToTypingMindContext`: name and id lines
always, then the guarded status, due date, description (cleaned and
truncated), assignee and tag lines. -/
def taskBlockConv (idx : Nat) (task : Js) : Except String String := do
  let nm ← jsRead task "name"
  let tid ← jsRead task "id"
  let base := toString (idx + 1) ++ ". Task: " ++ jsToString nm ++
    "\n   ID: " ++ jsToString tid ++ "\n"
  let st := propRead task "status"
  let stLine :=
    if st.truthy && (propRead st "status").truthy then
      "   Status: " ++ jsToString (propRead st "status") ++ "\n"
    else ""
  let dueLine :=
    if (propRead task "dueDate").truthy then
      "   Due: " ++ jsToString (propRead task "dueDate") ++ "\n"
    else ""
  let descLine ←
    if (propRead task "description").truthy then do
      let d ← expectString (propRead task "description")
      pure ("   Description: " ++ truncateDescription (cleanDescription d) ++ "\n")
    else pure ""
  let asg := propRead task "assignees"
  let asgLine ←
    if asg.truthy && jsLenGtZero asg then
      match asg with
      | .arr xs => do
        let names ← xs.mapM (fun a => do
          let u ← jsRead a "username"
          if u.truthy then pure (joinItem u)
          else do
            let e ← jsRead a "email"
            pure (joinItem (if e.truthy then e else Js.str "Unknown user")))
        pure ("   Assigned to: " ++ String.intercalate ", " names ++ "\n")
      | _ => .error "TypeError: assignees.map is not a function"
    else pure ""
  let tags := propRead task "tags"
  let tagLine ←
    if tags.truthy && jsLenGtZero tags then
      match tags with
      | .arr xs => do
        let names ← xs.mapM (fun t => do
          let n ← jsRead t "name"
          pure (joinItem (if n.truthy then n else t)))
        pure ("   Tags: " ++ String.intercalate ", " names ++ "\n")
      | _ => .error "TypeError: tags.map is not a function"
    else pure ""
  pure (base ++ stLine ++ dueLine ++ descLine ++ asgLine ++ tagLine ++ "\n")

/-- Per-entry space block of the renderer (note: this dead branch joins the
`name` fields of statuses, unlike the spaces formatter which joins their
`status` fields). -/
def spaceBlockConv (idx : Nat) (space : Js) : Except String String := do
  let nm ← jsRead space "name"
  let sid ← jsRead space "id"
  let base := toString (idx + 1) ++ ". Space: " ++ jsToString nm ++
    "\n   ID: " ++ jsToString sid ++ "\n"
  let sts := propRead space "statuses"
  let stLine ←
    if sts.truthy && jsLenGtZero sts then
      match sts with
      | .arr xs => do
        let names ← xs.mapM (fun s => do
          let n ← jsRead s "name"
          pure (joinItem n))
        pure ("   Statuses: " ++ String.intercalate ", " names ++ "\n")
      | _ => .error "TypeError: statuses.map is not a function"
    else pure ""
  pure (base ++ stLine ++ "\n")

def listBlockConv (idx : Nat) (list : Js) : Except String String := do
  let nm ← jsRead list "name"
  let lid ← jsRead list "id"
  let base := toString (idx + 1) ++ ". List: " ++ jsToString nm ++
    "\n   ID: " ++ jsToString lid ++ "\n"
  let stLine :=
    if (propRead list "status").truthy then
      "   Status: " ++ jsToString (propRead list "status") ++ "\n"
    else ""
  pure (base ++ stLine ++ "\n")

def folderBlockConv (idx : Nat) (folder : Js) : Except String String := do
  let nm ← jsRead folder "name"
  let fid ← jsRead folder "id"
  pure (toString (idx + 1) ++ ". Folder: " ++ jsToString nm ++
    "\n   ID: " ++ jsToString fid ++ "\n\n")

def genericBlockConv (idx : Nat) (item : Js) : Except String String := do
  let nm ← jsRead item "name"
  let nmStr := if nm.truthy then jsToString nm else "Unknown"
  let iid ← jsRead item "id"
  let idStr := if iid.truthy then jsToString iid else "No ID"
  pure (toString (idx + 1) ++ ". Item: " ++ nmStr ++
    "\n   ID: " ++ idStr ++ "\n\n")

/-- Body of `convertToTypingMindContext` before its catch: non-arrays are
reported as no data available, the empty array as none found, and a
non-empty array renders under the capitalized kind header through the
per-kind entry blocks. -/
def convertTry (data : Js) (dataType : String) : Except String String :=
  match data with
  | .arr items =>
    if items.isEmpty then pure ("No " ++ dataType ++ " found.")
    else do
      let blocks ←
        if dataType = "tasks" then mapIdxM taskBlockConv items
        else if dataType = "spaces" then mapIdxM spaceBlockConv items
        else if dataType = "lists" then mapIdxM listBlockConv items
        else if dataType = "folders" then mapIdxM folderBlockConv items
        else mapIdxM genericBlockConv items
      pure ("ClickUp " ++ capitalizeFirst dataType ++ ":\n\n" ++ strConcat blocks)
  | _ => pure ("No " ++ dataType ++ " data available.")

/-- Embeds `convertToTypingMindContext` including its catch, which turns any
per-entry TypeError into an inline error text.  The source returns
`{ text }`; we return the text itself. -/
def convertToTypingMindContext (data : Js) (dataType : String) : String :=
  match convertTry data dataType with
  | .ok t => t
  | .error e => "Error formatting " ++ dataType ++ " data: " ++ e

/-- Embeds the enhanced `formatResponseForTypingMind`: falsy payloads are
reported as no data available, otherwise the payload is dispatched to the
kind formatter and the result is always pushed through the renderer.  The
source returns `{ text }`; we return the text itself.  Formatter throws
(for example from the comments formatter) escape to the caller. -/
def formatResponseForTypingMind (data : Js) (dataType : String) :
    Except String String := do
  if ¬ data.truthy then pure ("No " ++ dataType ++ " data available.")
  else do
    let formattedData ←
      if dataType = "tasks" then formatTasksForTypingMind data
      else if dataType = "spaces" then formatSpacesForTypingMind data
      else if dataType = "lists" then formatListsForTypingMind data
      else if dataType = "folders" then formatFoldersForTypingMind data
      else if dataType = "comments" then formatCommentsForTypingMind data
      else formatGenericForTypingMind data dataType
    pure (convertToTypingMindContext formattedData dataType)

/-- One entry of the aggregation results object: the formatted text plus the
error flag (absent, hence false, on success entries; true on the per-kind
catch entries of the clickup-all handler). -/
structure FmtResult where
  text : String
  error : Bool
deriving Repr, DecidableEq

/-- Header stripping inside `combineFormattedResponses`: when the section
text contains a blank line, drop everything up to the first one. -/
def stripTextHeader (t : String) : String :=
  let parts := strSplitOn t "\n\n"
  if parts.length > 1 then String.intercalate "\n\n" (parts.drop 1) else t

/-- Section block a non-error result contributes to the combined document:
upper-cased kind banner, the header-stripped text, and a separator. -/
def sectionBlock (dataType : String) (r : FmtResult) : String :=
  "== " ++ upperStr dataType ++ " ==\n\n" ++ stripTextHeader r.text ++ "\n\n"

/-- Trailing summary of the combined document, listing every key of the
results object. -/
def summaryBlock (dataTypes : List String) : String :=
  "== SUMMARY ==\n\n" ++
  "This overview includes information from " ++
  String.intercalate ", " dataTypes ++ ".\n" ++
  "Use this information as context for your responses about ClickUp projects and tasks.\n\n"

/-- Embeds `combineFormattedResponses` over the results object, modeled as
an association list in key-insertion order.  Results flagged with an error
are skipped; if nothing contributed a section the fixed no-data text is
returned; otherwise the summary lists all keys, including skipped ones.
The surrounding try/catch never fires (every step is a total string
operation), and the entries are always present, so the `!result` guard of
the source is vacuous here. -/
def combineFormattedResponses (results : List (String × FmtResult)) : FmtResult :=
  let dataTypes := results.map (fun p => p.1)
  if dataTypes.isEmpty then ⟨"No ClickUp data available.", false⟩
  else
    let combinedText := results.foldl
      (fun acc p => if p.2.error then acc else acc ++ sectionBlock p.1 p.2)
      "ClickUp Workspace Overview:\n\n"
    if combinedText = "ClickUp Workspace Overview:\n\n" then
      ⟨"No ClickUp data available.", false⟩
    else
      ⟨combinedText ++ summaryBlock dataTypes, false⟩

/-- Upstream responses for one aggregation request: each field holds the
parsed JSON a service call resolves with, or the message of the error it
rejects with.  The two-level resources are keyed by the string form of the
space id they are fetched for. -/
structure FetchEnv where
  recentTasks : Except String Js
  spaces : Except String Js
  folderlessLists : String → Except String Js
  folders : String → Except String Js

/-- Per-space unit of the two-level fan-out: evaluate `space.id` (a throw
for a nullish space element) and issue the per-space fetch `fetch`, keyed by
the string form of the id. -/
def fetchForSpace (fetch : String → Except String Js) (space : Js) :
    Except String (String × Js) := do
  let sid ← jsRead space "id"
  let resp ← fetch (jsToString sid)
  pure (jsToString sid, resp)

/-- Flattening step of the two-level fan-out: a per-space response carrying
a truthy list under `key` is spread onto the accumulator, anything else is
skipped (a truthy non-array there would make the spread throw). -/
def accumSpread (key : String) (acc : List Js) (p : String × Js) :
    Except String (List Js) :=
  if p.2.truthy && (propRead p.2 key).truthy then
    match propRead p.2 key with
    | .arr xs => pure (acc ++ xs)
    | _ => Except.error "TypeError: spread of a non-iterable value"
  else pure acc

/-- Two-level fetch of the `lists` branch of the clickup-all handler: fetch
the spaces, take the first `limit` of them, issue one folderless-lists
fetch per taken space, and flatten the per-space `lists` arrays in space
order.  Returns the ids the per-space fetches were issued for together with
the assembled `\x7b lists \x7d` payload. -/
def listsFanout (env : FetchEnv) (limit : Nat) :
    Except String (List String × Js) := do
  let spaces ← env.spaces
  if spaces.truthy && (propRead spaces "spaces").truthy then
    match propRead spaces "spaces" with
    | .arr allSpaces => do
      let limited := allSpaces.take limit
      let fetched ← limited.mapM (fetchForSpace env.folderlessLists)
      let lists ← fetched.foldlM (accumSpread "lists") ([] : List Js)
      pure (fetched.map (fun p => p.1), Js.obj [("lists", Js.arr lists)])
    | _ => Except.error "TypeError: slice is not a function"
  else
    pure ([], Js.obj [("lists", Js.arr [])])

/-- Two-level fetch of the `folders` branch, mirroring `listsFanout`. -/
def foldersFanout (env : FetchEnv) (limit : Nat) :
    Except String (List String × Js) := do
  let spaces ← env.spaces
  if spaces.truthy && (propRead spaces "spaces").truthy then
    match propRead spaces "spaces" with
    | .arr allSpaces => do
      let limited := allSpaces.take limit
      let fetched ← limited.mapM (fetchForSpace env.folders)
      let folders ← fetched.foldlM (accumSpread "folders") ([] : List Js)
      pure (fetched.map (fun p => p.1), Js.obj [("folders", Js.arr folders)])
    | _ => Except.error "TypeError: slice is not a function"
  else
    pure ([], Js.obj [("folders", Js.arr [])])

/-- One data type through the clickup-all handler: trim the requested kind,
fetch its data (single level for tasks and spaces, two-level for lists and
folders), format it, and catch any failure as an inline error entry.
Unknown kinds return without recording anything. -/
def processDataType (env : FetchEnv) (limit : Nat) (dataTypeRaw : String) :
    Option FmtResult :=
  let dataType := trimStr dataTypeRaw
  let fetched : Option (Except String Js) :=
    if dataType = "tasks" then some env.recentTasks
    else if dataType = "spaces" then some env.spaces
    else if dataType = "lists" then some ((listsFanout env limit).map (fun p => p.2))
    else if dataType = "folders" then some ((foldersFanout env limit).map (fun p => p.2))
    else none
  match fetched with
  | none => none
  | some (.error e) => some ⟨"Error fetching " ++ dataType ++ ": " ++ e, true⟩
  | some (.ok data) =>
    match formatResponseForTypingMind data dataType with
    | .ok txt => some ⟨txt, false⟩
    | .error e => some ⟨"Error fetching " ++ dataType ++ ": " ++ e, true⟩

/-- Assignment `results[k] = v` on a JavaScript object modeled as an
association list: an existing key keeps its position and gets the new
value, a new key is appended. -/
def objSet (l : List (String × FmtResult)) (k : String) (v : FmtResult) :
    List (String × FmtResult) :=
  match l with
  | [] => [(k, v)]
  | (k0, v0) :: rest =>
    if k0 = k then (k0, v) :: rest else (k0, v0) :: objSet rest k v

/-- Results object of the clickup-all handler.  The handler launches one
concurrent unit per requested kind and each unit assigns into `results`
when it completes, so the insertion order of the object is the completion
order of the units; `completionOrder` is that order, a permutation of the
requested kinds for any real interleaving. -/
def clickupAllResults (env : FetchEnv) (limit : Nat)
    (completionOrder : List String) : List (String × FmtResult) :=
  completionOrder.foldl
    (fun acc dt =>
      match processDataType env limit dt with
      | none => acc
      | some r => objSet acc (trimStr dt) r)
    []

/-- Combined document of the clickup-all endpoint: the per-kind results in
completion order, merged by `combineFormattedResponses`.  The requested
kind list itself only determines which units run; the assembled document
depends on it solely through the completion order. -/
def clickupAllCombined (env : FetchEnv) (limit : Nat)
    (completionOrder : List String) : FmtResult :=
  combineFormattedResponses (clickupAllResults env limit completionOrder)

/-- Per-task text block of the legacy `formatTasksForTypingMind` of
`src/utils/formatters.js`: the status line is unconditional and reads
`task.status.status`, so a task without a status object throws. -/
def legacyTaskBlock (idx : Nat) (task : Js) : Except String String := do
  let nm ← jsRead task "name"
  let tid ← jsRead task "id"
  let stVal ← jsRead (propRead task "status") "status"
  let base := toString (idx + 1) ++ ". Task: " ++ jsToString nm ++
    "\n   ID: " ++ jsToString tid ++
    "\n   Status: " ++ (if stVal.truthy then jsToString stVal else "No status") ++ "\n"
  let dueLine :=
    if (propRead task "due_date").truthy then
      "   Due: " ++
        (match jsParseInt (propRead task "due_date") with
         | some n => if validMs n then localeDateOfMillis n else "Invalid Date"
         | none => "Invalid Date") ++ "\n"
    else ""
  let descLine ←
    if (propRead task "description").truthy then do
      let d ← expectString (propRead task "description")
      pure ("   Description: " ++ truncateDescription (cleanDescription d) ++ "\n")
    else pure ""
  let asg := propRead task "assignees"
  let asgLine ←
    if asg.truthy && jsLenGtZero asg then
      match asg with
      | .arr xs => do
        let names ← xs.mapM (fun a => do
          let u ← jsRead a "username"
          if u.truthy then pure (joinItem u)
          else do
            let e ← jsRead a "email"
            pure (joinItem e))
        pure ("   Assigned to: " ++ String.intercalate ", " names ++ "\n")
      | _ => .error "TypeError: assignees.map is not a function"
    else pure ""
  let tags := propRead task "tags"
  let tagLine ←
    if tags.truthy && jsLenGtZero tags then
      match tags with
      | .arr xs => do
        let names ← xs.mapM (fun t => do
          let n ← jsRead t "name"
          pure (joinItem n))
        pure ("   Tags: " ++ String.intercalate ", " names ++ "\n")
      | _ => .error "TypeError: tags.map is not a function"
    else pure ""
  pure (base ++ dueLine ++ descLine ++ asgLine ++ tagLine ++ "\n")

/-- Embeds the legacy `formatTasksForTypingMind` of
`src/utils/formatters.js`: only payloads with a truthy `tasks` property are
formatted (note that an empty array is truthy, so an empty task list
renders the bare header).  Returns the text of the `\x7b text \x7d`
result. -/
def legacyFormatTasksForTypingMind (data : Js) : Except String String := do
  let tasksField ← jsRead data "tasks"
  if ¬ tasksField.truthy then pure "No tasks found."
  else
    match tasksField with
    | .arr ts => do
      let blocks ← mapIdxM legacyTaskBlock ts
      pure ("Recent ClickUp Tasks:\n\n" ++ strConcat blocks)
    | _ => .error "TypeError: tasks.forEach is not a function"

/-- Truthiness of an optional JavaScript string (undefined or the empty
string are falsy). -/
def optStrTruthy : Option String → Bool
  | none => false
  | some s => s != ""

/-- The token store of `token-manager.js`, modeled as an association list
with the most recent binding first (a `Map.set` overwrite is modeled by
prepending; `Map.get` is the first binding found). -/
abbrev TokenStore : Type := List (String × String)

/-- Lookup backing `tokens.get(userId)`. -/
def storeGet (s : TokenStore) (userId : String) : Option String :=
  match (List.find? (fun p => p.1 == userId) s) with
  | some p => some p.2
  | none => none

/-- Embeds `TokenManager.storeToken`, returning the store after the call
together with the result: a falsy user id or a token not starting with
pk underscore throws before the store is touched, otherwise the binding is
stored and true is returned. -/
def storeToken (s : TokenStore) (userId token : String) :
    TokenStore × Except String Bool :=
  if userId = "" then (s, .error "User ID is required")
  else if token = "" ∨ ¬ startsWithStr token "pk_" then
    (s, .error "Invalid ClickUp API token format. Token should start with pk_")
  else ((userId, token) :: s, .ok true)

/-- Embeds `TokenManager.getToken`: null for a falsy user id, the stored
token if present and truthy, null otherwise (`token || null`). -/
def getToken (s : TokenStore) (userId : String) : Option String :=
  if userId = "" then none
  else
    match storeGet s userId with
    | some t => if t = "" then none else some t
    | none => none

/-- Headers `getHeaders` builds once it has a token. -/
structure ApiHeaders where
  authorization : String
  contentType : String
deriving Repr, DecidableEq

def mkHeaders (token : String) : ApiHeaders :=
  ⟨token, "application/json"⟩

/-- Embeds `ClickUpService.getHeaders(userId)`: the environment token wins
whenever it is truthy, regardless of the user id; otherwise a truthy user
id is looked up in the token manager, and a missing mapping or a falsy user
id throws.  The user id argument is optional in the source (`getHeaders()`
passes undefined), modeled as an optional string with undefined as none. -/
def getHeaders (envToken : Option String) (store : TokenStore)
    (userId : Option String) : Except String ApiHeaders :=
  match envToken with
  | some t =>
    if t ≠ "" then .ok (mkHeaders t)
    else getHeadersUserBranch store userId
  | none => getHeadersUserBranch store userId
where
  getHeadersUserBranch (store : TokenStore) (userId : Option String) :
      Except String ApiHeaders :=
    match userId with
    | some u =>
      if u ≠ "" then
        match getToken store u with
        | some tk =>
          if tk ≠ "" then .ok (mkHeaders tk)
          else .error "No ClickUp API token found for this user"
        | none => .error "No ClickUp API token found for this user"
      else .error "No ClickUp API token available"
    | none => .error "No ClickUp API token available"

/-- The header selection of `ClickUpService.getRecentTasks`:
`this.token ? this.getHeaders() : this.getHeaders(userId)`. -/
def getRecentTasksHeaders (envToken : Option String) (store : TokenStore)
    (userId : Option String) : Except String ApiHeaders :=
  if optStrTruthy envToken then getHeaders envToken store none
  else getHeaders envToken store userId

/-- Tokens returned by `getToken` are never the empty string. -/
theorem getToken_ne_empty (s : TokenStore) (u t : String)
    (h : getToken s u = some t) : t ≠ "" := by
  unfold getToken at h
  split at h
  · exact absurd h (by simp)
  · split at h
    · split at h
      · exact absurd h (by simp)
      · intro he
        cases h
        simp_all
    · exact absurd h (by simp)

/-- C8: after markup stripping, a cleaned description longer than 100
characters renders as exactly its first 100 characters followed by an
ellipsis, and a cleaned description of exactly 100 characters renders
unmodified. -/
theorem c8_description_truncation (s : String) :
    ((cleanDescription s).length > 100 →
      truncateDescription (cleanDescription s) =
        (cleanDescription s).take 100 ++ "...")
    ∧ ((cleanDescription s).length = 100 →
      truncateDescription (cleanDescription s) = cleanDescription s) := by
  constructor
  · intro h
    simp [truncateDescription, h]
  · intro h
    simp [truncateDescription, h]

/-- Concrete instantiation of the truncation theorem: a 101-character
cleaned description is cut to 100 characters plus the ellipsis, while a
100-character one passes through unchanged. -/
theorem c8_description_truncation_witness :
    ((cleanDescription (String.mk (List.replicate 101 'a'))).length > 100 ∧
      truncateDescription (cleanDescription (String.mk (List.replicate 101 'a'))) =
        (cleanDescription (String.mk (List.replicate 101 'a'))).take 100 ++ "...")
    ∧ ((cleanDescription (String.mk (List.replicate 100 'b'))).length = 100 ∧
      truncateDescription (cleanDescription (String.mk (List.replicate 100 'b'))) =
        cleanDescription (String.mk (List.replicate 100 'b'))) :=
  ⟨⟨by decide, (c8_description_truncation _).1 (by decide)⟩,
   ⟨by decide, (c8_description_truncation _).2 (by decide)⟩⟩

/-- C10: the token store only ever holds tokens starting with pk underscore:
a falsy user id or a malformed token makes `storeToken` throw with the store
untouched; a valid pair is stored, returns true, and is what `getToken`
then yields for that user (and only that user); `getToken` yields null for
a falsy user id or an unknown user; and storing preserves the well-formed
token invariant. -/
theorem c10_token_store_invariants :
    (∀ (s : TokenStore) (u t : String), u = "" ∨ ¬ startsWithStr t "pk_" →
      (storeToken s u t).1 = s ∧ ∃ e, (storeToken s u t).2 = .error e)
    ∧ (∀ (s : TokenStore) (u t : String), u ≠ "" → startsWithStr t "pk_" →
      storeToken s u t = ((u, t) :: s, .ok true)
      ∧ getToken ((u, t) :: s) u = some t
      ∧ ∀ u2, u2 ≠ u → getToken ((u, t) :: s) u2 = getToken s u2)
    ∧ (∀ s : TokenStore, getToken s "" = none)
    ∧ (∀ (s : TokenStore) (u : String), storeGet s u = none → getToken s u = none)
    ∧ (∀ (s : TokenStore) (u t : String) (s2 : TokenStore) (b : Bool),
      storeToken s u t = (s2, .ok b) →
      (∀ p ∈ s, startsWithStr p.2 "pk_") → ∀ p ∈ s2, startsWithStr p.2 "pk_") := by
  refine ⟨?_, ?_, ?_, ?_, ?_⟩
  · intro s u t h
    by_cases hu : u = ""
    · simp [storeToken, hu]
    · have ht : ¬ startsWithStr t "pk_" := h.resolve_left hu
      by_cases hte : t = "" <;> simp [storeToken, hu, hte, ht]
  · intro s u t hu ht
    have hte : t ≠ "" := by
      intro he
      rw [he] at ht
      exact absurd ht (by decide)
    refine ⟨by simp [storeToken, hu, hte, ht], ?_, ?_⟩
    · simp [getToken, hu, storeGet, hte]
    · intro u2 hu2
      by_cases h2 : u2 = ""
      · simp [getToken, h2]
      · have hne : ((u, t).1 == u2) = false := by
          simp
          exact Ne.symm hu2
        simp only [getToken, h2, storeGet, List.find?, hne, if_neg h2]
  · intro s
    simp [getToken]
  · intro s u h
    simp [getToken, h]
  · intro s u t s2 b hst hwf p hp
    unfold storeToken at hst
    split at hst
    · simp at hst
    · split at hst
      · simp at hst
      · rename_i hu hcond
        simp only [Prod.mk.injEq] at hst
        obtain ⟨hs2, -⟩ := hst
        rw [← hs2] at hp
        rcases List.mem_cons.mp hp with h | h
        · subst h
          show startsWithStr t "pk_" = true
          by_contra hn
          exact hcond (Or.inr (by simpa using hn))
        · exact hwf p h

/-- Concrete instantiation of the token store theorem: a malformed token is
rejected with the store untouched, and a valid token is stored and read
back. -/
theorem c10_token_store_invariants_witness :
    ((storeToken [] "u1" "bad").1 = [] ∧ ∃ e, (storeToken [] "u1" "bad").2 = .error e)
    ∧ (storeToken [] "u1" "pk_tok" = ([("u1", "pk_tok")], .ok true)
      ∧ getToken [("u1", "pk_tok")] "u1" = some "pk_tok"
      ∧ ∀ u2, u2 ≠ "u1" → getToken [("u1", "pk_tok")] u2 = getToken [] u2) :=
  ⟨c10_token_store_invariants.1 [] "u1" "bad" (Or.inr (by decide)),
   (c10_token_store_invariants.2.1 [] "u1" "pk_tok" (by decide) (by decide))⟩

/-- Error cases of the fallback branch of `getHeaders`: it throws exactly
for a missing or empty user id or an absent stored token. -/
theorem getHeaders_userBranch_spec (store : TokenStore) (uid : Option String) :
    (∃ e, getHeaders.getHeadersUserBranch store uid = .error e) ↔
      (uid = none ∨ uid = some "" ∨ ∃ u, uid = some u ∧ getToken store u = none) := by
  cases uid with
  | none => simp [getHeaders.getHeadersUserBranch]
  | some u =>
    by_cases hu : u = ""
    · subst hu
      simp [getHeaders.getHeadersUserBranch]
    · cases hg : getToken store u with
      | none => simp [getHeaders.getHeadersUserBranch, hu, hg]
      | some tk =>
        have : tk ≠ "" := getToken_ne_empty store u tk hg
        simp [getHeaders.getHeadersUserBranch, hu, hg, this]

/-- C9: when the service holds a truthy environment token, `getHeaders` uses
it for every request and ignores the user id and the per-user store; only
without one does it fall back to the stored per-user token; the selector in
`getRecentTasks` is equivalent to plain `getHeaders(userId)`; and the call
throws exactly when there is no environment token and either no (truthy)
user id was supplied or no token is stored for that user. -/
theorem c9_env_token_precedence :
    (∀ (t : String) (store : TokenStore) (uid : Option String), t ≠ "" →
      getHeaders (some t) store uid = .ok (mkHeaders t))
    ∧ (∀ (envToken : Option String) (store : TokenStore) (uid : Option String),
      ¬ optStrTruthy envToken →
      getHeaders envToken store uid = getHeaders.getHeadersUserBranch store uid)
    ∧ (∀ (envToken : Option String) (store : TokenStore) (uid : Option String),
      getRecentTasksHeaders envToken store uid = getHeaders envToken store uid)
    ∧ (∀ (envToken : Option String) (store : TokenStore) (uid : Option String),
      (∃ e, getHeaders envToken store uid = .error e) ↔
        (¬ optStrTruthy envToken ∧
          (uid = none ∨ uid = some "" ∨
            ∃ u, uid = some u ∧ getToken store u = none))) := by
  have henv : ∀ (t : String) (store : TokenStore) (uid : Option String), t ≠ "" →
      getHeaders (some t) store uid = .ok (mkHeaders t) := by
    intro t store uid ht
    simp [getHeaders, ht]
  have hfall : ∀ (envToken : Option String) (store : TokenStore) (uid : Option String),
      ¬ optStrTruthy envToken →
      getHeaders envToken store uid = getHeaders.getHeadersUserBranch store uid := by
    intro envToken store uid h
    cases envToken with
    | none => rfl
    | some t =>
      have : t = "" := by simpa [optStrTruthy] using h
      simp [getHeaders, this]
  refine ⟨henv, hfall, ?_, ?_⟩
  · intro envToken store uid
    by_cases h : optStrTruthy envToken
    · cases envToken with
      | none => simp [optStrTruthy] at h
      | some t =>
        have ht : t ≠ "" := by simpa [optStrTruthy] using h
        rw [getRecentTasksHeaders, if_pos h, henv t store none ht, henv t store uid ht]
    · rw [getRecentTasksHeaders, if_neg h]
  · intro envToken store uid
    by_cases h : optStrTruthy envToken
    · cases envToken with
      | none => simp [optStrTruthy] at h
      | some t =>
        have ht : t ≠ "" := by simpa [optStrTruthy] using h
        rw [henv t store uid ht]
        simp [h]
    · rw [hfall envToken store uid h]
      rw [getHeaders_userBranch_spec store uid]
      simp [h]

/-- Concrete instantiation of the header-selection theorem: with an
environment token the per-user store (holding a different token for this
very user) is ignored, and without one a user with no stored token makes
the call throw. -/
theorem c9_env_token_precedence_witness :
    getHeaders (some "pk_env") [("u1", "pk_user")] (some "u1") =
      .ok (mkHeaders "pk_env")
    ∧ (∃ e, getHeaders none [] (some "u1") = .error e) :=
  ⟨c9_env_token_precedence.1 "pk_env" [("u1", "pk_user")] (some "u1") (by decide),
   (c9_env_token_precedence.2.2.2 none [] (some "u1")).mpr
    ⟨by decide, Or.inr (Or.inr ⟨"u1", rfl, by decide⟩)⟩⟩

/-- C4 (code bug): the legacy task formatter of `src/utils/formatters.js`
reads `task.status.status` unconditionally, so a task with id and name but
no status object throws a TypeError out of the whole pass, although the
same line falls back to a No-status default for a falsy status value and
the enhanced formatter substitutes Unknown; the enhanced pipeline renders
the very same payload fine. -/
theorem c4_legacy_formatter_throws_on_missing_status :
    legacyFormatTasksForTypingMind
      (Js.obj [("tasks", Js.arr [Js.obj [("id", Js.str "1"), ("name", Js.str "T")]])]) =
      .error "TypeError: cannot read property status"
    ∧ formatResponseForTypingMind
      (Js.obj [("tasks", Js.arr [Js.obj [("id", Js.str "1"), ("name", Js.str "T")]])])
      "tasks" =
      .ok "ClickUp Tasks:\n\n1. Task: T\n   ID: 1\n   Status: Unknown\n\n" :=
  ⟨rfl, rfl⟩

/-- C5 (counterexample): in the comments formatter a single comment without
a comment text makes the whole formatting pass throw instead of degrading
that one entry. -/
theorem c5_comments_counterexample :
    formatResponseForTypingMind
      (Js.obj [("comments", Js.arr [Js.obj [("id", Js.str "c1")]])]) "comments" =
      .error "TypeError: v.replace is not a function" :=
  rfl

/-- C5 (amended): per-entry degradation holds for the tasks formatter only:
the enhanced tasks pass always returns normally with one entry per task,
and an entry whose extraction throws is replaced by the degraded entry
carrying the best-effort id, name and an error marker. -/
theorem c5_per_entry_degradation_tasks_only :
    (∀ ts : List Js, formatTasksForTypingMind (Js.obj [("tasks", Js.arr ts)]) =
      .ok (Js.arr (ts.map formatTaskItem)))
    ∧ (∀ (t : Js) (e : String), formatTaskItemTry t = .error e →
      formatTaskItem t = degradedTaskEntry t) := by
  constructor
  · intro ts
    rfl
  · intro t e h
    simp [formatTaskItem, h]

/-- Concrete instantiation of the degradation theorem: a null task makes
the per-entry extraction throw and is replaced by the degraded entry,
inside a pass that still returns normally. -/
theorem c5_per_entry_degradation_witness :
    formatTasksForTypingMind (Js.obj [("tasks", Js.arr [Js.null])]) =
      .ok (Js.arr ([Js.null].map formatTaskItem))
    ∧ formatTaskItemTry Js.null = .error "TypeError: cannot read property assignees"
    ∧ formatTaskItem Js.null = degradedTaskEntry Js.null :=
  ⟨(c5_per_entry_degradation_tasks_only.1 [Js.null]),
   rfl,
   c5_per_entry_degradation_tasks_only.2 Js.null
     "TypeError: cannot read property assignees" rfl⟩

/-- C6 (counterexample): the spaces formatter does not accept the bare list
shape: a bare one-element space list formats as the fixed no-spaces text,
while the same element wrapped under a spaces property is actually
formatted, so the two shapes do not format the same items. -/
theorem c6_spaces_counterexample :
    formatSpacesForTypingMind
      (Js.arr [Js.obj [("id", Js.str "s1"), ("name", Js.str "S")]]) =
      .ok (textObj "No spaces found.")
    ∧ formatSpacesForTypingMind
      (Js.obj [("spaces", Js.arr [Js.obj [("id", Js.str "s1"), ("name", Js.str "S")]])]) =
      .ok (textObj "ClickUp Spaces:\n\n1. Space: S\n   ID: s1\n\n")
    ∧ ("No spaces found." : String) ≠ "ClickUp Spaces:\n\n1. Space: S\n   ID: s1\n\n" :=
  ⟨rfl, rfl, by decide⟩

/-- C6 (amended): only the tasks formatter accepts both the wrapped and the
bare list shape with the same items formatted; the spaces, lists, folders
and comments formatters return normally on a bare list but treat it as the
fixed none-found text instead of formatting its items. -/
theorem c6_wrapped_and_bare_payloads :
    (∀ ts : List Js, formatTasksForTypingMind (Js.obj [("tasks", Js.arr ts)]) =
      formatTasksForTypingMind (Js.arr ts))
    ∧ (∀ items : List Js,
      formatSpacesForTypingMind (Js.arr items) = .ok (textObj "No spaces found."))
    ∧ (∀ items : List Js,
      formatListsForTypingMind (Js.arr items) = .ok (textObj "No lists found."))
    ∧ (∀ items : List Js,
      formatFoldersForTypingMind (Js.arr items) = .ok (textObj "No folders found."))
    ∧ (∀ items : List Js,
      formatCommentsForTypingMind (Js.arr items) = .ok (textObj "No comments found.")) :=
  ⟨fun _ => rfl, fun _ => rfl, fun _ => rfl, fun _ => rfl, fun _ => rfl⟩

/-- C7 (code bug): rendering an empty entry sequence does produce the fixed
none-found sentence for tasks, but the spaces, lists, folders and comments
formatters hand the renderer a text block instead of an entry sequence, so
their empty payloads render as the no-data-available text instead; the
legacy tasks formatter renders a bare header for an empty task array. -/
theorem c7_empty_rendering :
    formatResponseForTypingMind (Js.obj [("tasks", Js.arr [])]) "tasks" =
      .ok "No tasks found."
    ∧ formatResponseForTypingMind (Js.obj [("lists", Js.arr [])]) "lists" =
      .ok "No lists data available."
    ∧ formatResponseForTypingMind (Js.obj [("spaces", Js.arr [])]) "spaces" =
      .ok "No spaces data available."
    ∧ formatResponseForTypingMind (Js.obj [("folders", Js.arr [])]) "folders" =
      .ok "No folders data available."
    ∧ legacyFormatTasksForTypingMind (Js.obj [("tasks", Js.arr [])]) =
      .ok "Recent ClickUp Tasks:\n\n" :=
  ⟨rfl, rfl, rfl, rfl, rfl⟩

theorem strConcat_length (l : List String) :
    (strConcat l).length = (l.map String.length).sum := by
  induction l with
  | nil => rfl
  | cons s rest ih => simp [strConcat, String.length_append, ih]

theorem sectionBlock_length_pos (dataType : String) (r : FmtResult) :
    0 < (sectionBlock dataType r).length := by
  unfold sectionBlock
  rw [String.length_append, String.length_append, String.length_append,
    String.length_append]
  have h3 : ("== ").length = 3 := rfl
  omega

/-- The section-accumulating loop of the combiner is the initial text
followed by the concatenation of the section blocks of the entries that are
not error flagged. -/
theorem combine_foldl_eq (l : List (String × FmtResult)) (init : String) :
    l.foldl (fun acc p => if p.2.error then acc else acc ++ sectionBlock p.1 p.2)
      init =
      init ++ strConcat (l.map
        (fun p => if p.2.error then "" else sectionBlock p.1 p.2)) := by
  induction l generalizing init with
  | nil => simp [strConcat, String.append_empty]
  | cons p rest ih =>
    by_cases h : p.2.error
    · simp [List.foldl_cons, h, strConcat, ih, String.empty_append]
    · simp [List.foldl_cons, h, strConcat, ih, String.append_assoc]

/-- Closed form of the combiner whenever at least one entry is not error
flagged: the fixed header, then the section blocks of the non-error entries
in key order, then the summary listing every key (error entries included). -/
theorem combine_closed_form (results : List (String × FmtResult))
    (hsucc : ∃ p ∈ results, p.2.error = false) :
    combineFormattedResponses results =
      ⟨"ClickUp Workspace Overview:\n\n" ++
        strConcat (results.map
          (fun q => if q.2.error then "" else sectionBlock q.1 q.2)) ++
        summaryBlock (results.map (fun q => q.1)), false⟩ := by
  obtain ⟨p, hp, herr⟩ := hsucc
  have hSlen : 0 < (strConcat (results.map
      (fun q => if q.2.error then "" else sectionBlock q.1 q.2))).length := by
    rw [strConcat_length]
    have hmem : (sectionBlock p.1 p.2).length ∈
        ((results.map (fun q => if q.2.error then "" else sectionBlock q.1 q.2)).map
          String.length) := by
      rw [List.map_map]
      exact List.mem_map.mpr ⟨p, hp, by simp [herr]⟩
    have hle := List.single_le_sum (fun (x : Nat) _ => Nat.zero_le x) _ hmem
    have hpos := sectionBlock_length_pos p.1 p.2
    omega
  cases results with
  | nil => simp at hp
  | cons q rest =>
    have hneq : "ClickUp Workspace Overview:\n\n" ++
        strConcat ((q :: rest).map
          (fun q => if q.2.error then "" else sectionBlock q.1 q.2)) ≠
        "ClickUp Workspace Overview:\n\n" := by
      intro h
      have hlen := congrArg String.length h
      rw [String.length_append] at hlen
      omega
    simp only [List.map_cons] at hneq
    simp only [combineFormattedResponses, combine_foldl_eq, List.map_cons,
      List.isEmpty_cons, Bool.false_eq_true, if_false, if_neg hneq,
      String.append_assoc]

/-- Assigning a fresh key into the results object appends it. -/
theorem objSet_append (l : List (String × FmtResult)) (k : String) (v : FmtResult)
    (h : k ∉ l.map (fun p => p.1)) : objSet l k v = l ++ [(k, v)] := by
  induction l with
  | nil => rfl
  | cons q rest ih =>
    obtain ⟨k0, v0⟩ := q
    simp only [List.map_cons, List.mem_cons] at h
    push_neg at h
    rw [objSet, if_neg (fun he => h.1 he.symm)]
    rw [ih h.2]
    rfl

/-- With pairwise distinct trimmed kinds (the request shapes the endpoint
documents), the results object lists one entry per known kind in completion
order. -/
theorem clickupAllResults_eq_filterMap (env : FetchEnv) (limit : Nat)
    (sched : List String) (hnodup : (sched.map trimStr).Nodup) :
    clickupAllResults env limit sched =
      sched.filterMap (fun dt => (processDataType env limit dt).map
        (fun r => (trimStr dt, r))) := by
  have aux : ∀ (l : List String) (acc : List (String × FmtResult)),
      (∀ dt ∈ l, trimStr dt ∉ acc.map (fun p => p.1)) →
      (l.map trimStr).Nodup →
      l.foldl (fun acc dt =>
          match processDataType env limit dt with
          | none => acc
          | some r => objSet acc (trimStr dt) r) acc =
        acc ++ l.filterMap (fun dt => (processDataType env limit dt).map
          (fun r => (trimStr dt, r))) := by
    intro l
    induction l with
    | nil => intro acc _ _; simp
    | cons dt rest ih =>
      intro acc hacc hnd
      simp only [List.map_cons, List.nodup_cons] at hnd
      cases hpd : processDataType env limit dt with
      | none =>
        simp only [List.foldl_cons, hpd]
        rw [ih acc (fun d hd => hacc d (List.mem_cons_of_mem dt hd)) hnd.2]
        simp [List.filterMap_cons, hpd]
      | some r =>
        simp only [List.foldl_cons, hpd]
        rw [objSet_append acc (trimStr dt) r (hacc dt (List.mem_cons_self dt rest))]
        rw [ih (acc ++ [(trimStr dt, r)]) ?_ hnd.2]
        · simp [List.filterMap_cons, hpd]
        · intro d hd
          simp only [List.map_append, List.mem_append]
          push_neg
          refine ⟨fun hmem => hacc d (List.mem_cons_of_mem dt hd) hmem, ?_⟩
          simp only [List.map_cons, List.map_nil, List.mem_singleton]
          intro he
          exact hnd.1 (he ▸ List.mem_map_of_mem trimStr hd)
  rw [clickupAllResults, aux sched [] (by simp) hnodup]
  simp

/-- Fetch environment for the partial-failure counterexample: tasks and
spaces resolve, the folderless-lists fetch of the only space rejects, so
the lists kind fails while the other two succeed. -/
def envC1 : FetchEnv :=
  { recentTasks := .ok (Js.obj [("tasks", Js.arr [])])
    spaces := .ok (Js.obj [("spaces",
      Js.arr [Js.obj [("id", Js.str "s1"), ("name", Js.str "S")]])])
    folderlessLists := fun _ => .error "boom"
    folders := fun _ => .error "boom" }

/-- C1 (counterexample): three requested kinds, the lists fetch fails and
the other two succeed; the per-kind catch does record an error entry for
lists, yet the combined document contains no error line at all (the
combiner skips error entries) and no lists section, while the failed kind
still shows up in the trailing summary. -/
theorem c1_counterexample :
    (clickupAllCombined envC1 10 ["tasks", "spaces", "lists"]).text =
      "ClickUp Workspace Overview:\n\n== TASKS ==\n\nNo tasks found.\n\n== SPACES ==\n\nNo spaces data available.\n\n== SUMMARY ==\n\nThis overview includes information from tasks, spaces, lists.\nUse this information as context for your responses about ClickUp projects and tasks.\n\n"
    ∧ (strSplitOn (clickupAllCombined envC1 10 ["tasks", "spaces", "lists"]).text
        "Error").length = 1
    ∧ (strSplitOn (clickupAllCombined envC1 10 ["tasks", "spaces", "lists"]).text
        "LISTS").length = 1
    ∧ processDataType envC1 10 "lists" =
      some ⟨"Error fetching lists: boom", true⟩ :=
  ⟨rfl, rfl, rfl, rfl⟩

/-- C1 (amended): a kind whose upstream fetch rejects never aborts the
aggregation: it is recorded as an error-flagged entry, and the combined
document then consists of the header, the sections of the non-failing kinds
(the failed kind contributes no section and no inline error line, its error
entry being skipped), and the trailing summary that still names every
recorded kind, the failed one included. -/
theorem c1_amended_partial_failure :
    (∀ (env : FetchEnv) (limit : Nat) (msg : String),
      env.recentTasks = .error msg →
      processDataType env limit "tasks" =
        some ⟨"Error fetching tasks: " ++ msg, true⟩)
    ∧ (∀ results : List (String × FmtResult),
      (∃ p ∈ results, p.2.error = false) →
      (combineFormattedResponses results).text =
        "ClickUp Workspace Overview:\n\n" ++
        strConcat (results.map
          (fun q => if q.2.error then "" else sectionBlock q.1 q.2)) ++
        summaryBlock (results.map (fun q => q.1))) := by
  constructor
  · intro env limit msg h
    have ht : trimStr "tasks" = "tasks" := rfl
    simp [processDataType, ht, h]
  · intro results hsucc
    rw [combine_closed_form results hsucc]

/-- Concrete instantiation of the partial-failure theorem: a rejected tasks
fetch becomes an inline error entry, and a two-entry results object with
one failed kind combines into the closed-form document. -/
theorem c1_amended_partial_failure_witness :
    processDataType
      { recentTasks := .error "down", spaces := .error "down",
        folderlessLists := fun _ => .error "down",
        folders := fun _ => .error "down" } 10 "tasks" =
      some ⟨"Error fetching tasks: down", true⟩
    ∧ (combineFormattedResponses
        [("tasks", ⟨"No tasks found.", false⟩),
         ("lists", ⟨"Error fetching lists: boom", true⟩)]).text =
      "ClickUp Workspace Overview:\n\n" ++
      strConcat ([("tasks", (⟨"No tasks found.", false⟩ : FmtResult)),
         ("lists", ⟨"Error fetching lists: boom", true⟩)].map
        (fun q => if q.2.error then "" else sectionBlock q.1 q.2)) ++
      summaryBlock ["tasks", "lists"] :=
  ⟨c1_amended_partial_failure.1 _ 10 "down" rfl,
   c1_amended_partial_failure.2
     [("tasks", ⟨"No tasks found.", false⟩),
      ("lists", ⟨"Error fetching lists: boom", true⟩)]
     ⟨("tasks", ⟨"No tasks found.", false⟩), by simp, rfl⟩⟩

/-- Fetch environment for the ordering counterexample: tasks and spaces
both resolve with tiny payloads. -/
def envC2 : FetchEnv :=
  { recentTasks := .ok (Js.obj [("tasks", Js.arr [])])
    spaces := .ok (Js.obj [("spaces", Js.arr [])])
    folderlessLists := fun _ => .error "x"
    folders := fun _ => .error "x" }

/-- C2 (counterexample): the same two requested kinds, tasks then spaces,
produce different combined documents depending only on which per-kind unit
completes first; when spaces completes first its section precedes the tasks
section, so the document order is the completion order of the results
object, not the caller-specified kind order. -/
theorem c2_counterexample :
    clickupAllCombined envC2 10 ["spaces", "tasks"] ≠
      clickupAllCombined envC2 10 ["tasks", "spaces"]
    ∧ startsWithStr (clickupAllCombined envC2 10 ["spaces", "tasks"]).text
        "ClickUp Workspace Overview:\n\n== SPACES ==" = true
    ∧ startsWithStr (clickupAllCombined envC2 10 ["tasks", "spaces"]).text
        "ClickUp Workspace Overview:\n\n== TASKS ==" = true :=
  ⟨by decide, rfl, rfl⟩

/-- C2 (amended): the combined document concatenates the per-kind sections
in the order the per-kind units completed (the insertion order of the
results object), not the caller-specified kind order, under the fixed
header, each section prefixed by the upper-cased kind label, and the
trailing summary lists every recorded kind, including failed kinds whose
sections were skipped. -/
theorem c2_amended_completion_order (env : FetchEnv) (limit : Nat)
    (completionOrder : List String)
    (hnodup : (completionOrder.map trimStr).Nodup)
    (hsucc : ∃ dt ∈ completionOrder, ∃ r,
      processDataType env limit dt = some r ∧ r.error = false) :
    (clickupAllCombined env limit completionOrder).text =
      "ClickUp Workspace Overview:\n\n" ++
      strConcat ((completionOrder.filterMap
        (fun dt => (processDataType env limit dt).map (fun r => (trimStr dt, r)))).map
        (fun q => if q.2.error then "" else sectionBlock q.1 q.2)) ++
      summaryBlock ((completionOrder.filterMap
        (fun dt => (processDataType env limit dt).map
          (fun r => (trimStr dt, r)))).map (fun q => q.1)) := by
  unfold clickupAllCombined
  rw [clickupAllResults_eq_filterMap env limit completionOrder hnodup]
  have hsucc2 : ∃ p ∈ completionOrder.filterMap
      (fun dt => (processDataType env limit dt).map (fun r => (trimStr dt, r))),
      p.2.error = false := by
    obtain ⟨dt, hdt, r, hr, herr⟩ := hsucc
    exact ⟨(trimStr dt, r), List.mem_filterMap.mpr ⟨dt, hdt, by simp [hr]⟩, herr⟩
  rw [combine_closed_form _ hsucc2]

/-- Concrete instantiation of the completion-order theorem on the
counterexample environment with the spaces unit completing first. -/
theorem c2_amended_completion_order_witness :
    (clickupAllCombined envC2 10 ["spaces", "tasks"]).text =
      "ClickUp Workspace Overview:\n\n" ++
      strConcat ((["spaces", "tasks"].filterMap
        (fun dt => (processDataType envC2 10 dt).map (fun r => (trimStr dt, r)))).map
        (fun q => if q.2.error then "" else sectionBlock q.1 q.2)) ++
      summaryBlock ((["spaces", "tasks"].filterMap
        (fun dt => (processDataType envC2 10 dt).map
          (fun r => (trimStr dt, r)))).map (fun q => q.1)) :=
  c2_amended_completion_order envC2 10 ["spaces", "tasks"] (by decide)
    ⟨"tasks", by simp, ⟨"No tasks found.", false⟩, rfl, rfl⟩

theorem exceptBind_ok {α β : Type} (a : α) (f : α → Except String β) :
    (Except.ok a : Except String α) >>= f = f a := rfl

theorem funCompApply {α β γ : Type} (f : β → γ) (g : α → β) :
    f ∘ g = fun x => f (g x) := rfl

/-- The per-space fetch loop over well-formed space objects resolves to the
per-space responses, keyed by the space ids in space order. -/
theorem fanout_mapM_spec (fetch : String → Except String Js) (key : String)
    (es : List (String × List Js))
    (h : ∀ e ∈ es, fetch e.1 = .ok (Js.obj [(key, Js.arr e.2)])) :
    (es.map (fun e => Js.obj [("id", Js.str e.1)])).mapM (fetchForSpace fetch) =
      .ok (es.map (fun e => (e.1, Js.obj [(key, Js.arr e.2)]))) := by
  induction es with
  | nil => rfl
  | cons e rest ih =>
    rw [List.map_cons, List.mapM_cons]
    have h1 : fetchForSpace fetch (Js.obj [("id", Js.str e.1)]) =
        (fetch e.1).bind (fun resp => pure (e.1, resp)) := rfl
    rw [h1, h e (List.mem_cons_self e rest),
      ih (fun d hd => h d (List.mem_cons_of_mem e hd))]
    rfl

/-- The flattening loop over well-formed per-space responses concatenates
the per-space item arrays in space order onto the accumulator. -/
theorem fanout_foldlM_spec (key : String) (es : List (String × List Js))
    (acc : List Js) :
    (es.map (fun e => (e.1, Js.obj [(key, Js.arr e.2)]))).foldlM
      (accumSpread key) acc =
      .ok (acc ++ (es.map (fun e => e.2)).flatten) := by
  induction es generalizing acc with
  | nil =>
    simp only [List.map_nil, List.foldlM_nil, List.flatten_nil, List.append_nil]
    rfl
  | cons e rest ih =>
    rw [List.map_cons, List.foldlM_cons]
    have hpr : propRead (Js.obj [(key, Js.arr e.2)]) key = Js.arr e.2 := by
      simp [propRead, List.find?]
    have h1 : accumSpread key acc (e.1, Js.obj [(key, Js.arr e.2)]) =
        .ok (acc ++ e.2) := by
      simp only [accumSpread, hpr, Js.truthy, Bool.and_self, if_true]
      rfl
    rw [h1, exceptBind_ok, ih (acc ++ e.2)]
    simp [List.append_assoc]

/-- C3: with limit 2, the lists aggregation first resolves the spaces of
the workspace, then issues folderless-list fetches for exactly the first
min(2, N) spaces (hence for at most the first two), flattens the per-space
list arrays in space order into one payload, and records it as the single
lists entry of the results object. -/
theorem c3_lists_two_level_fanout (env : FetchEnv)
    (entries : List (String × List Js))
    (hsp : env.spaces = .ok (Js.obj [("spaces",
      Js.arr (entries.map (fun e => Js.obj [("id", Js.str e.1)])))]))
    (hfl : ∀ e ∈ entries, env.folderlessLists e.1 =
      .ok (Js.obj [("lists", Js.arr e.2)])) :
    listsFanout env 2 =
      .ok ((entries.take 2).map (fun e => e.1),
        Js.obj [("lists", Js.arr (((entries.take 2).map (fun e => e.2)).flatten))])
    ∧ ((entries.take 2).map (fun e => e.1)).length ≤ 2
    ∧ ∃ r, clickupAllResults env 2 ["lists"] = [("lists", r)] := by
  have hfan : listsFanout env 2 =
      .ok ((entries.take 2).map (fun e => e.1),
        Js.obj [("lists",
          Js.arr (((entries.take 2).map (fun e => e.2)).flatten))]) := by
    unfold listsFanout
    rw [hsp, exceptBind_ok]
    have hpr : propRead (Js.obj [("spaces",
        Js.arr (entries.map (fun e => Js.obj [("id", Js.str e.1)])))]) "spaces" =
        Js.arr (entries.map (fun e => Js.obj [("id", Js.str e.1)])) := rfl
    rw [hpr]
    simp only [Js.truthy, Bool.and_self, if_true]
    rw [← List.map_take]
    rw [fanout_mapM_spec env.folderlessLists "lists" (entries.take 2)
      (fun e he => hfl e (List.mem_of_mem_take he)), exceptBind_ok]
    rw [fanout_foldlM_spec "lists" (entries.take 2) [], exceptBind_ok]
    simp only [List.map_map, funCompApply, List.nil_append]
    rfl
  refine ⟨hfan, by rw [List.length_map, List.length_take]; omega, ?_⟩
  cases hfmt : formatResponseForTypingMind
      (Js.obj [("lists",
        Js.arr ((List.take 2 (entries.map (fun e => e.2))).flatten))]) "lists" with
  | ok txt =>
    refine ⟨⟨txt, false⟩, ?_⟩
    have hpd : processDataType env 2 "lists" = some ⟨txt, false⟩ := by
      simp [processDataType, hfan, hfmt, Except.map, trimStr]
    simp [clickupAllResults, hpd, objSet, trimStr]
  | error e =>
    refine ⟨⟨"Error fetching lists: " ++ e, true⟩, ?_⟩
    have hpd : processDataType env 2 "lists" =
        some ⟨"Error fetching lists: " ++ e, true⟩ := by
      simp [processDataType, hfan, hfmt, Except.map, trimStr]
    simp [clickupAllResults, hpd, objSet, trimStr]

/-- Workspace with three spaces for the fan-out witness; the per-space
folderless-list fetches resolve with one list for each of the first two
spaces. -/
def entriesC3 : List (String × List Js) :=
  [("s1", [Js.obj [("id", Js.str "l1"), ("name", Js.str "L1")]]),
   ("s2", [Js.obj [("id", Js.str "l2"), ("name", Js.str "L2")]]),
   ("s3", [])]

def envC3 : FetchEnv :=
  { recentTasks := .error "x"
    spaces := .ok (Js.obj [("spaces",
      Js.arr (entriesC3.map (fun e => Js.obj [("id", Js.str e.1)])))])
    folderlessLists := fun sid =>
      if sid = "s1" then
        .ok (Js.obj [("lists",
          Js.arr [Js.obj [("id", Js.str "l1"), ("name", Js.str "L1")]])])
      else if sid = "s2" then
        .ok (Js.obj [("lists",
          Js.arr [Js.obj [("id", Js.str "l2"), ("name", Js.str "L2")]])])
      else .ok (Js.obj [("lists", Js.arr [])])
    folders := fun _ => .error "x" }

/-- Concrete instantiation of the fan-out theorem: three spaces, limit 2,
fetches issued exactly for the first two space ids, their lists flattened
in space order into the single lists entry. -/
theorem c3_lists_two_level_fanout_witness :
    listsFanout envC3 2 =
      .ok ((entriesC3.take 2).map (fun e => e.1),
        Js.obj [("lists", Js.arr (((entriesC3.take 2).map (fun e => e.2)).flatten))])
    ∧ ((entriesC3.take 2).map (fun e => e.1)).length ≤ 2
    ∧ ∃ r, clickupAllResults envC3 2 ["lists"] = [("lists", r)] :=
  c3_lists_two_level_fanout envC3 entriesC3 rfl
    (by intro e he; fin_cases he <;> rfl)
